import Mathlib

/-!
Verification of the vlang header search-path core against its source.

Part 1 embeds `src/include/vlang/Lex/DirectoryLookup.h`: the
`DirectoryLookup` class is a tagged union over a directory pointer and a
header-map pointer, discriminated by a one-bit `LookupType` field, with a
two-bit `DirCharacteristic` field and a one-bit `IsIndexHeaderMap` flag.

Part 2 embeds `src/utils/TableGen/OptParserEmitter.cpp`:
`StrCmpOptionName` (C-string comparison with the inverted prefix rule) and
`CompareOptionRecords` (the option-record comparator handed to
`array_pod_sort`, which raises a fatal error when it compares two
equivalent records).

Part 3 models, from the specification, the parts of the resolution engine
whose implementation is not in the repository sources: the per-entry
`lookupFile` operation and the `resolve` scan over the configured search
list.

All definitions come first, followed by all theorems.
-/

namespace Vlang

/-! ## Part 1: DirectoryLookup (src/include/vlang/Lex/DirectoryLookup.h) -/

/-- Opaque handle to a directory, owned by the external file cache
(`const DirectoryEntry *` in the source). -/
structure DirectoryEntry where
  id : Nat
deriving DecidableEq

/-- Opaque handle to a parsed header map (`const HeaderMap *`). -/
structure HeaderMap where
  id : Nat
deriving DecidableEq

/-- `enum LookupType_t { LT_NormalDir, LT_HeaderMap }`. -/
inductive LookupType_t where
  | LT_NormalDir
  | LT_HeaderMap
deriving DecidableEq

/-- The anonymous union `u` of `DirectoryLookup`, discriminated by the
`LookupType` bit: it holds either the `Dir` member or the `Map` member.
The accessors below read a member only after checking the discriminant,
so a mismatched read cannot occur for constructed values. -/
inductive UnionU where
  | Dir (dir : DirectoryEntry)
  | Map (map : HeaderMap)
deriving DecidableEq

/-- The `DirectoryLookup` class state: the union `u`, the 2-bit
`DirCharacteristic` bitfield (values 0..3), the 1-bit `LookupType`
discriminant and the 1-bit `IsIndexHeaderMap` flag. -/
structure DirectoryLookup where
  u : UnionU
  DirCharacteristic : Nat
  LookupType : LookupType_t
  IsIndexHeaderMap : Bool
deriving DecidableEq

/-- The normal-directory constructor
`DirectoryLookup(const DirectoryEntry *dir, SrcMgr::CharacteristicKind DT, bool isFramework)`:
stores `DT` in the 2-bit bitfield (hence the `% 4` truncation), sets the
discriminant to `LT_NormalDir`, `IsIndexHeaderMap` to `false`, and
`u.Dir = dir`.  The `isFramework` argument is accepted but not stored,
exactly as in the source. -/
def DirectoryLookup.ofDir (dir : DirectoryEntry) (DT : Nat) (isFramework : Bool) :
    DirectoryLookup :=
  { u := UnionU.Dir dir
    DirCharacteristic := DT % 4
    LookupType := LookupType_t.LT_NormalDir
    IsIndexHeaderMap := false }

/-- The header-map constructor
`DirectoryLookup(const HeaderMap *map, SrcMgr::CharacteristicKind DT, bool isIndexHeaderMap)`:
stores `DT` in the 2-bit bitfield, sets the discriminant to
`LT_HeaderMap`, stores the `isIndexHeaderMap` flag and `u.Map = map`. -/
def DirectoryLookup.ofHeaderMap (map : HeaderMap) (DT : Nat) (isIndexHeaderMap : Bool) :
    DirectoryLookup :=
  { u := UnionU.Map map
    DirCharacteristic := DT % 4
    LookupType := LookupType_t.LT_HeaderMap
    IsIndexHeaderMap := isIndexHeaderMap }

/-- `getLookupType() { return (LookupType_t)LookupType; }` -/
def DirectoryLookup.getLookupType (dl : DirectoryLookup) : LookupType_t :=
  dl.LookupType

/-- `isNormalDir() { return getLookupType() == LT_NormalDir; }` -/
def DirectoryLookup.isNormalDir (dl : DirectoryLookup) : Bool :=
  dl.getLookupType == LookupType_t.LT_NormalDir

/-- `isHeaderMap() { return getLookupType() == LT_HeaderMap; }` -/
def DirectoryLookup.isHeaderMap (dl : DirectoryLookup) : Bool :=
  dl.getLookupType == LookupType_t.LT_HeaderMap

/-- `getDir() { return isNormalDir() ? u.Dir : 0; }` — the null pointer is
modelled as `none`. -/
def DirectoryLookup.getDir (dl : DirectoryLookup) : Option DirectoryEntry :=
  if dl.isNormalDir then
    match dl.u with
    | UnionU.Dir d => some d
    | UnionU.Map _ => none
  else none

/-- `getHeaderMap() { return isHeaderMap() ? u.Map : 0; }` — the null
pointer is modelled as `none`. -/
def DirectoryLookup.getHeaderMap (dl : DirectoryLookup) : Option HeaderMap :=
  if dl.isHeaderMap then
    match dl.u with
    | UnionU.Map m => some m
    | UnionU.Dir _ => none
  else none

/-- `getDirCharacteristic() { return (SrcMgr::CharacteristicKind)DirCharacteristic; }` -/
def DirectoryLookup.getDirCharacteristic (dl : DirectoryLookup) : Nat :=
  dl.DirCharacteristic

/-- `isIndexHeaderMap() { return isHeaderMap() && IsIndexHeaderMap; }` -/
def DirectoryLookup.isIndexHeaderMap (dl : DirectoryLookup) : Bool :=
  dl.isHeaderMap && dl.IsIndexHeaderMap

/-! ## Part 2: OptParserEmitter (src/utils/TableGen/OptParserEmitter.cpp) -/

/-- `StrCmpOptionName(const char *A, const char *B)`: walk both C strings
while the current characters are equal; if both end together return 0; if
`A` ends first (`A` is a proper prefix of `B`) return 1; if `B` ends first
return -1; otherwise order by the first differing character.  C strings
are modelled as `List Char` (the terminator is the end of the list). -/
def strCmpOptionName : List Char → List Char → Int
  | [], [] => 0
  | [], _ :: _ => 1
  | _ :: _, [] => -1
  | a :: as, b :: bs =>
    if a = b then strCmpOptionName as bs
    else if a < b then -1 else 1

/-- An option record, restricted to the fields `CompareOptionRecords`
reads: the `Sentinel` bit of its `Kind`, the `Name` string, the
`Prefixes` string list, and the `Precedence` integer of its `Kind`. -/
structure OptRecord where
  sentinel : Bool
  name : List Char
  prefixes : List (List Char)
  precedence : Int
deriving DecidableEq

/-- The prefix-list loop of `CompareOptionRecords`: walk both `Prefixes`
lists while both have elements, returning the first nonzero
`StrCmpOptionName` of the paired elements; fall through with 0 when
either list is exhausted. -/
def comparePrefixLists : List (List Char) → List (List Char) → Int
  | a :: as, b :: bs =>
    if strCmpOptionName a b ≠ 0 then strCmpOptionName a b
    else comparePrefixLists as bs
  | _, _ => 0

/-- `CompareOptionRecords(Av, Bv)`: sentinel options precede all others
and are ordered only by precedence; non-sentinels are compared first by
name (`StrCmpOptionName`, returned if nonzero) and then by the paired
elements of their prefix lists; finally by kind precedence, where equal
precedence together with equal prefix lists raises the fatal
"Equivalent Options found" error (`PrintFatalError`), modelled as
`Except.error ()`. -/
def compareOptionRecords (A B : OptRecord) : Except Unit Int :=
  if A.sentinel ≠ B.sentinel then Except.ok (if A.sentinel then -1 else 1)
  else if ¬A.sentinel ∧ strCmpOptionName A.name B.name ≠ 0 then
    Except.ok (strCmpOptionName A.name B.name)
  else if ¬A.sentinel ∧ comparePrefixLists A.prefixes B.prefixes ≠ 0 then
    Except.ok (comparePrefixLists A.prefixes B.prefixes)
  else if A.precedence = B.precedence ∧ A.prefixes = B.prefixes then
    Except.error ()
  else Except.ok (if A.precedence < B.precedence then -1 else 1)

/-- One insertion step of the sort model: insert `x` into the already
sorted list before the first element `y` with `cmp x y < 0`; a comparator
error propagates. -/
def insertSorted (cmp : α → α → Except Unit Int) (x : α) :
    List α → Except Unit (List α)
  | [] => Except.ok [x]
  | y :: ys => do
    let c ← cmp x y
    if c < 0 then return x :: y :: ys
    else return y :: (← insertSorted cmp x ys)

/-- Left-to-right insertion pass over the input list. -/
def sortWithCmp (cmp : α → α → Except Unit Int) :
    List α → List α → Except Unit (List α)
  | acc, [] => Except.ok acc
  | acc, x :: xs => do sortWithCmp cmp (← insertSorted cmp x acc) xs

/-- `llvm::array_pod_sort(Opts.begin(), Opts.end(), CompareOptionRecords)`
delegates to C `qsort`, an unspecified comparison sort that invokes the
comparator on pairs of its choosing; it is modelled here as an insertion
sort threading the comparator's possible fatal error. -/
def arrayPodSort (cmp : α → α → Except Unit Int) (l : List α) :
    Except Unit (List α) :=
  sortWithCmp cmp [] l

/-- Concrete option record: name `n`, prefix list `[p]`, precedence 0. -/
def dupA : OptRecord :=
  { sentinel := false, name := ['n'], prefixes := [['p']], precedence := 0 }

/-- Concrete option record: name `n`, prefix list `[p, q]`, precedence 0.
Against `dupA` the comparator reaches the final precedence tie with equal
common prefix positions but unequal prefix lists, returning 1 in both
directions. -/
def dupW : OptRecord :=
  { sentinel := false, name := ['n'], prefixes := [['p'], ['q']], precedence := 0 }

/-- Concrete option record: name `n`, prefix list `[p, qa]`, precedence 1.
It compares below `dupW` (second prefix `qa` sorts before its proper
prefix `q`) and above `dupA` (equal common prefix positions, higher
precedence). -/
def dupY : OptRecord :=
  { sentinel := false, name := ['n'], prefixes := [['p'], ['q', 'a']], precedence := 1 }

/-- Concrete option record with name `a`, used as a witness input. -/
def recP : OptRecord :=
  { sentinel := false, name := ['a'], prefixes := [], precedence := 0 }

/-- Concrete option record with name `b`, used as a witness input. -/
def recQ : OptRecord :=
  { sentinel := false, name := ['b'], prefixes := [], precedence := 0 }

/-! ## Part 3: resolution engine, modelled from the spec

The implementation of `DirectoryLookup::LookupFile` and of the search-list
resolution scan is not part of the repository sources (only the
declaration in `DirectoryLookup.h` is), so these operations are modelled
from the specification (§4.1, §4.2, §6).  Paths are modelled as lists of
components (`/a/b` is `["a", "b"]`): concatenating a directory path with
a filename appends the component lists, and a filename "contains a path
separator" exactly when it has at least two components. -/

/-- A path, as its list of components. -/
abbrev Path := List String

/-- Modelled from the spec: the external file cache capability (§6),
`statFile(path) -> optional FileEntry`, where a `FileEntry` is identified
by its canonical path (§3). -/
structure FileCache where
  statFile : Path → Option Path

/-- Modelled from the spec: the external header-map capability (§6,
§4.1), `lookup(name) -> optional path`, plus the configuration fact of
whether the map belongs to a framework explicitly declared "system". -/
structure HeaderMapTable where
  lookup : Path → Option Path
  declaredSystemFramework : Bool

/-- Modelled from the spec (§3): one configured search location,
polymorphic over normal directories and header maps, carrying its
characteristic and, for header maps, the `isIndexMap` flag. -/
inductive SearchPathEntry where
  | NormalDirectory (dirPath : Path) (characteristic : Nat)
  | HeaderMapEntry (map : HeaderMapTable) (characteristic : Nat) (isIndexMap : Bool)

/-- The characteristic attached to an entry. -/
def SearchPathEntry.characteristic : SearchPathEntry → Nat
  | .NormalDirectory _ c => c
  | .HeaderMapEntry _ c _ => c

/-- The same entry with its characteristic replaced. -/
def SearchPathEntry.withCharacteristic : SearchPathEntry → Nat → SearchPathEntry
  | .NormalDirectory d _, c => .NormalDirectory d c
  | .HeaderMapEntry m _ ix, c => .HeaderMapEntry m c ix

/-- Whether a hit through this entry lies in a framework explicitly
declared "system" by configuration: never for a normal directory, and as
configured on the header map otherwise (§4.1). -/
def SearchPathEntry.inDeclaredSystemFramework : SearchPathEntry → Bool
  | .NormalDirectory _ _ => false
  | .HeaderMapEntry m _ _ => m.declaredSystemFramework

/-- A successful per-entry lookup: the resolved file and the
`isSystemFramework` output of `lookupFile`. -/
structure LookupHit where
  file : Path
  isSystemFramework : Bool

/-- Modelled from the spec (§4.1): the `lookupFile` contract of
`DirectoryLookup::LookupFile`, whose implementation is not in the
sources.  A normal directory concatenates its path with the filename and
asks the file cache; a header-map entry probes the map verbatim and, when
`isIndexMap` is set and the filename has the shape
`<FrameworkName>/<Rest>`, additionally probes `Rest`, preferring the
verbatim hit; the `isSystemFramework` output is set exactly by the
configured system-framework declaration of the map, never from the
entry's characteristic. -/
def lookupFile (e : SearchPathEntry) (filename : Path) (fc : FileCache) :
    Option LookupHit :=
  match e with
  | .NormalDirectory dirPath _ =>
    match fc.statFile (dirPath ++ filename) with
    | some f => some { file := f, isSystemFramework := false }
    | none => none
  | .HeaderMapEntry map _ isIndexMap =>
    match map.lookup filename with
    | some p => some { file := p, isSystemFramework := map.declaredSystemFramework }
    | none =>
      if isIndexMap then
        match filename with
        | _ :: r2 :: rest =>
          match map.lookup (r2 :: rest) with
          | some p =>
            some { file := p, isSystemFramework := map.declaredSystemFramework }
          | none => none
        | _ => none
      else none

/-- A configured entry with its quote-only flag (§3). -/
structure ConfiguredEntry where
  entry : SearchPathEntry
  quoteOnly : Bool

/-- Modelled from the spec (§3): the immutable ordered search list plus
the configured start index for angled includes. -/
structure SearchList where
  entries : List ConfiguredEntry
  angledStart : Nat

/-- Angled vs quoted include (§4.2). -/
inductive IncludeKind where
  | Angled
  | Quoted
deriving DecidableEq

/-- Where a resolution result came from: the including directory (quoted
step 1) or the search-path entry at a configured index. -/
inductive ResultSource where
  | fromIncludingDir
  | fromEntry (idx : Nat)
deriving DecidableEq

/-- A successful resolution (§3 `LookupResult`): source, resolved file,
system-framework flag, and the characteristic propagated from the
supplying entry (or inherited from the including file). -/
structure LookupResult where
  source : ResultSource
  file : Path
  isSystemFramework : Bool
  characteristic : Nat

/-- Modelled from the spec (§4.2 steps 3-4): scan the configured entries
in order, skipping quote-only entries on angled includes; the first
`lookupFile` hit terminates the scan.  The `Nat` argument is the
configured index of the head entry. -/
def scanEntries (fc : FileCache) (filename : Path) (angled : Bool) :
    Nat → List ConfiguredEntry → Option LookupResult
  | _, [] => none
  | idx, ce :: rest =>
    if ce.quoteOnly && angled then scanEntries fc filename angled (idx + 1) rest
    else
      match lookupFile ce.entry filename fc with
      | some h =>
        some { source := ResultSource.fromEntry idx, file := h.file,
               isSystemFramework := h.isSystemFramework,
               characteristic := ce.entry.characteristic }
      | none => scanEntries fc filename angled (idx + 1) rest

/-- The scan start index (§4.2 step 2): the configured angled-start index
for angled includes, 0 for quoted includes. -/
def SearchList.startIndex (sl : SearchList) : IncludeKind → Nat
  | .Angled => sl.angledStart
  | .Quoted => 0

/-- Modelled from the spec (§4.2): resolve a filename.  A quoted include
with a known including directory first tries a direct stat of
`includingDir + filename`, inheriting the including file's characteristic
(step 1); otherwise the entries are scanned in configured order from the
start index (steps 2-4).  The step-5 cache only memoises these outcomes
and is omitted. -/
def resolve (sl : SearchList) (filename : Path) (kind : IncludeKind)
    (includingDir : Option (Path × Nat)) (fc : FileCache) : Option LookupResult :=
  let scan := scanEntries fc filename (kind == IncludeKind.Angled)
      (sl.startIndex kind) (sl.entries.drop (sl.startIndex kind))
  match kind, includingDir with
  | .Quoted, some (d, dirCharacteristic) =>
    match fc.statFile (d ++ filename) with
    | some f =>
      some { source := ResultSource.fromIncludingDir, file := f,
             isSystemFramework := false, characteristic := dirCharacteristic }
    | none => scan
  | _, _ => scan

/-- Concrete file cache for the witnesses: directories `/a` and `/b` both
contain `x.h`. -/
def twoDirCache : FileCache :=
  { statFile := fun p =>
      if p = ["a", "x.h"] then some ["a", "x.h"]
      else if p = ["b", "x.h"] then some ["b", "x.h"]
      else none }

/-- Concrete search list for the witnesses: `/a` (characteristic 0, User)
then `/b` (characteristic 1, System), no quote-only entries, angled scan
starting at index 0. -/
def twoDirList : SearchList :=
  { entries :=
      [ { entry := SearchPathEntry.NormalDirectory ["a"] 0, quoteOnly := false }
      , { entry := SearchPathEntry.NormalDirectory ["b"] 1, quoteOnly := false } ]
    angledStart := 0 }

/-- Concrete index header map declared to belong to a system framework:
it translates `h.h` to `SDK/h.h`. -/
def sysMapTable : HeaderMapTable :=
  { lookup := fun p => if p = ["h.h"] then some ["SDK", "h.h"] else none
    declaredSystemFramework := true }

/-- A file cache on which every stat misses. -/
def emptyCache : FileCache := { statFile := fun _ => none }

/-! ## Helper lemmas -/

/-- Reflexivity: comparing a C string with itself yields 0. -/
theorem strCmpOptionName_refl : ∀ A : List Char, strCmpOptionName A A = 0
  | [] => rfl
  | a :: as => by simp [strCmpOptionName, strCmpOptionName_refl as]

/-- `StrCmpOptionName` returns 0 exactly on equal strings. -/
theorem strCmpOptionName_eq_zero_iff :
    ∀ A B : List Char, strCmpOptionName A B = 0 ↔ A = B
  | [], [] => by simp [strCmpOptionName]
  | [], _ :: _ => by simp [strCmpOptionName]
  | _ :: _, [] => by simp [strCmpOptionName]
  | a :: as, b :: bs => by
    by_cases h : a = b
    · simp [strCmpOptionName, h, strCmpOptionName_eq_zero_iff as bs]
    · by_cases h2 : a < b <;> simp [strCmpOptionName, h, h2]

/-- A proper prefix sorts after its extension: comparing `A` with
`A ++ t` (`t` nonempty) yields 1. -/
theorem strCmpOptionName_proper_right :
    ∀ (A t : List Char), t ≠ [] → strCmpOptionName A (A ++ t) = 1
  | [], [], h => absurd rfl h
  | [], _ :: _, _ => by simp [strCmpOptionName]
  | a :: as, t, h => by
    rw [List.cons_append]
    simpa [strCmpOptionName] using strCmpOptionName_proper_right as t h

/-- Comparing `A ++ t` (`t` nonempty) with `A` yields -1. -/
theorem strCmpOptionName_proper_left :
    ∀ (A t : List Char), t ≠ [] → strCmpOptionName (A ++ t) A = -1
  | [], [], h => absurd rfl h
  | [], _ :: _, _ => by simp [strCmpOptionName]
  | a :: as, t, h => by
    rw [List.cons_append]
    simpa [strCmpOptionName] using strCmpOptionName_proper_left as t h

/-- Strings that first differ after a shared stem are ordered by the
first differing character. -/
theorem strCmpOptionName_first_diff :
    ∀ (c : List Char) (a b : Char) (as bs : List Char), a ≠ b →
      strCmpOptionName (c ++ a :: as) (c ++ b :: bs) = if a < b then -1 else 1
  | [], a, b, as, bs, h => by simp [strCmpOptionName, h]
  | x :: c, a, b, as, bs, h => by
    rw [List.cons_append, List.cons_append]
    simpa [strCmpOptionName] using strCmpOptionName_first_diff c a b as bs h

/-- `StrCmpOptionName` is antisymmetric. -/
theorem strCmpOptionName_antisym :
    ∀ A B : List Char, strCmpOptionName B A = -strCmpOptionName A B
  | [], [] => rfl
  | [], _ :: _ => rfl
  | _ :: _, [] => rfl
  | a :: as, b :: bs => by
    by_cases h : a = b
    · subst h
      simpa [strCmpOptionName] using strCmpOptionName_antisym as bs
    · have h' : ¬b = a := fun hh => h hh.symm
      rcases lt_trichotomy a b with hlt | heq | hgt
      · simp [strCmpOptionName, h, h', hlt, not_lt_of_gt hlt]
      · exact absurd heq h
      · simp [strCmpOptionName, h, h', hgt, not_lt_of_gt hgt]

/-- The prefix-list loop is reflexively 0. -/
theorem comparePrefixLists_refl : ∀ P, comparePrefixLists P P = 0
  | [] => rfl
  | p :: ps => by
    simp [comparePrefixLists, strCmpOptionName_refl p, comparePrefixLists_refl ps]

/-- The prefix-list loop is antisymmetric. -/
theorem comparePrefixLists_antisym :
    ∀ P Q, comparePrefixLists Q P = -comparePrefixLists P Q
  | [], [] => rfl
  | [], _ :: _ => rfl
  | _ :: _, [] => rfl
  | p :: ps, q :: qs => by
    by_cases h : strCmpOptionName p q = 0
    · have h2 : strCmpOptionName q p = 0 := by
        rw [strCmpOptionName_antisym p q, h, neg_zero]
      simp [comparePrefixLists, h, h2, comparePrefixLists_antisym ps qs]
    · have h2 : strCmpOptionName q p ≠ 0 := by
        rw [strCmpOptionName_antisym p q]
        simpa using h
      simp [comparePrefixLists, h, h2, strCmpOptionName_antisym p q]

/-! ## Theorems for the DirectoryLookup claims -/

/-- C4: the variant accessors are total and never fault: `getDir` returns
the stored directory handle on a normal-directory entry and `none` (the
null pointer) otherwise, and `getHeaderMap` returns the stored header map
on a header-map entry and `none` otherwise, for every value either
constructor produces. -/
theorem DirectoryLookup.variant_accessors_total
    (dir : DirectoryEntry) (DT : Nat) (isFramework : Bool)
    (map : HeaderMap) (DT2 : Nat) (ix : Bool) :
    (DirectoryLookup.ofDir dir DT isFramework).getDir = some dir ∧
    (DirectoryLookup.ofDir dir DT isFramework).getHeaderMap = none ∧
    (DirectoryLookup.ofHeaderMap map DT2 ix).getHeaderMap = some map ∧
    (DirectoryLookup.ofHeaderMap map DT2 ix).getDir = none :=
  ⟨rfl, rfl, rfl, rfl⟩

/-- C5: exactly one variant is live in every `DirectoryLookup` value:
`isNormalDir` and `isHeaderMap` always return opposite booleans (so in
particular this holds for every value either constructor produces, and is
preserved by every operation). -/
theorem DirectoryLookup.one_variant_live (dl : DirectoryLookup) :
    dl.isNormalDir = !dl.isHeaderMap := by
  cases dl with
  | mk u dc lt ix => cases lt <;> rfl

/-- C6: the `isFramework` argument of the normal-directory constructor is
not stored: the objects built with `isFramework = true` and
`isFramework = false` are equal, and in particular every accessor
(`getLookupType`, `getDir`, `getHeaderMap`, `isNormalDir`, `isHeaderMap`,
`getDirCharacteristic`, `isIndexHeaderMap`, and any other function of the
object such as the externally defined `getName`) agrees on them. -/
theorem DirectoryLookup.isFramework_no_interference
    (dir : DirectoryEntry) (DT : Nat) :
    DirectoryLookup.ofDir dir DT true = DirectoryLookup.ofDir dir DT false ∧
    (DirectoryLookup.ofDir dir DT true).getLookupType
      = (DirectoryLookup.ofDir dir DT false).getLookupType ∧
    (DirectoryLookup.ofDir dir DT true).getDir
      = (DirectoryLookup.ofDir dir DT false).getDir ∧
    (DirectoryLookup.ofDir dir DT true).getHeaderMap
      = (DirectoryLookup.ofDir dir DT false).getHeaderMap ∧
    (DirectoryLookup.ofDir dir DT true).isNormalDir
      = (DirectoryLookup.ofDir dir DT false).isNormalDir ∧
    (DirectoryLookup.ofDir dir DT true).isHeaderMap
      = (DirectoryLookup.ofDir dir DT false).isHeaderMap ∧
    (DirectoryLookup.ofDir dir DT true).getDirCharacteristic
      = (DirectoryLookup.ofDir dir DT false).getDirCharacteristic ∧
    (DirectoryLookup.ofDir dir DT true).isIndexHeaderMap
      = (DirectoryLookup.ofDir dir DT false).isIndexHeaderMap :=
  ⟨rfl, rfl, rfl, rfl, rfl, rfl, rfl, rfl⟩

/-- C7: for every characteristic `DT` representable in the 2-bit
`DirCharacteristic` field (`DT < 4`, i.e. one of User, System,
ExternCSystem, reserved), both constructors propagate it unchanged:
`getDirCharacteristic` returns exactly `DT`. -/
theorem DirectoryLookup.characteristic_propagated
    (DT : Nat) (hDT : DT < 4)
    (dir : DirectoryEntry) (isFramework : Bool) (map : HeaderMap) (ix : Bool) :
    (DirectoryLookup.ofDir dir DT isFramework).getDirCharacteristic = DT ∧
    (DirectoryLookup.ofHeaderMap map DT ix).getDirCharacteristic = DT := by
  constructor <;>
    simp [DirectoryLookup.ofDir, DirectoryLookup.ofHeaderMap,
      DirectoryLookup.getDirCharacteristic, Nat.mod_eq_of_lt hDT]

/-- Witness for C7 at `DT = 2` (ExternCSystem). -/
theorem DirectoryLookup.characteristic_propagated_witness :
    (DirectoryLookup.ofDir ⟨7⟩ 2 true).getDirCharacteristic = 2 ∧
    (DirectoryLookup.ofHeaderMap ⟨9⟩ 2 false).getDirCharacteristic = 2 :=
  DirectoryLookup.characteristic_propagated 2 (by decide) ⟨7⟩ true ⟨9⟩ false

/-- C10: `isIndexHeaderMap` returns `true` only for header-map entries:
it is `false` on every normal-directory-constructed entry and returns
exactly the flag supplied at construction on every header-map-constructed
entry. -/
theorem DirectoryLookup.isIndexHeaderMap_characterisation
    (dir : DirectoryEntry) (DT : Nat) (isFramework : Bool)
    (map : HeaderMap) (DT2 : Nat) (ix : Bool) :
    (DirectoryLookup.ofDir dir DT isFramework).isIndexHeaderMap = false ∧
    (DirectoryLookup.ofHeaderMap map DT2 ix).isIndexHeaderMap = ix :=
  ⟨rfl, rfl⟩

/-! ## Theorems for the OptParserEmitter claims -/

/-- C9: `StrCmpOptionName` returns 0 exactly on equal strings, 1 when the
first string is a proper prefix of the second, -1 when the second is a
proper prefix of the first, and otherwise orders by the first differing
character. -/
theorem strCmpOptionName_spec (A B : List Char) :
    (strCmpOptionName A B = 0 ↔ A = B) ∧
    ((∃ t, t ≠ [] ∧ B = A ++ t) → strCmpOptionName A B = 1) ∧
    ((∃ t, t ≠ [] ∧ A = B ++ t) → strCmpOptionName A B = -1) ∧
    (∀ (c : List Char) (a b : Char) (as bs : List Char),
      a ≠ b → A = c ++ a :: as → B = c ++ b :: bs →
      strCmpOptionName A B = if a < b then -1 else 1) := by
  refine ⟨strCmpOptionName_eq_zero_iff A B, ?_, ?_, ?_⟩
  · rintro ⟨t, ht, rfl⟩
    exact strCmpOptionName_proper_right A t ht
  · rintro ⟨t, ht, rfl⟩
    exact strCmpOptionName_proper_left B t ht
  · rintro c a b as bs h rfl rfl
    exact strCmpOptionName_first_diff c a b as bs h

/-- Witness for C9 on the strings `ab` and `ac`, which differ after the
shared stem `a`. -/
theorem strCmpOptionName_spec_witness :
    strCmpOptionName ['a', 'b'] ['a', 'c'] =
      if ('b' : Char) < 'c' then -1 else 1 :=
  (strCmpOptionName_spec ['a', 'b'] ['a', 'c']).2.2.2 ['a'] 'b' 'c' [] []
    (by decide) rfl rfl

/-- C8 counterexample: `dupA` and `dupW` are distinct records with equal
names and equal precedences whose prefix lists share their common
position; `CompareOptionRecords` returns 1 in both directions, so the
sign is not negated. -/
theorem compareOptionRecords_not_antisym :
    compareOptionRecords dupA dupW = Except.ok 1 ∧
    compareOptionRecords dupW dupA = Except.ok 1 ∧
    dupA ≠ dupW :=
  ⟨rfl, rfl, by decide⟩

/-- C8 amended: `CompareOptionRecords` is antisymmetric on every pair it
returns on, except when the comparison falls through to the final
precedence tiebreak with equal precedences (equal names or two sentinels,
equal common prefix positions) and unequal prefix lists, in which case it
returns 1 in both directions. -/
theorem compareOptionRecords_antisym (A B : OptRecord) (r s : Int)
    (hAB : compareOptionRecords A B = Except.ok r)
    (hBA : compareOptionRecords B A = Except.ok s) :
    s = -r ∨
      (r = 1 ∧ s = 1 ∧ A.precedence = B.precedence ∧ A.prefixes ≠ B.prefixes) := by
  by_cases hs : A.sentinel = B.sentinel
  · have hs' : ¬(A.sentinel ≠ B.sentinel) := by simpa using hs
    have hs'' : ¬(B.sentinel ≠ A.sentinel) := by simp [hs]
    rw [compareOptionRecords, if_neg hs'] at hAB
    rw [compareOptionRecords, if_neg hs''] at hBA
    by_cases hA : A.sentinel = true
    · have hB : B.sentinel = true := hs ▸ hA
      rw [if_neg (by simp [hA]), if_neg (by simp [hA])] at hAB
      rw [if_neg (by simp [hB]), if_neg (by simp [hB])] at hBA
      by_cases heq : A.precedence = B.precedence
      · by_cases hpre : A.prefixes = B.prefixes
        · rw [if_pos ⟨heq, hpre⟩] at hAB
          exact absurd hAB (by simp)
        · rw [if_neg (by simp [hpre])] at hAB
          rw [if_neg (fun hc => hpre hc.2.symm)] at hBA
          have hr : r = 1 := by
            have := hAB
            rw [if_neg (by simp [heq])] at this
            simpa using this.symm
          have hsv : s = 1 := by
            have := hBA
            rw [if_neg (by simp [heq.symm])] at this
            simpa using this.symm
          exact Or.inr ⟨hr, hsv, heq, hpre⟩
      · left
        rw [if_neg (by simp [heq])] at hAB
        rw [if_neg (fun hc => heq hc.1.symm)] at hBA
        rcases lt_trichotomy A.precedence B.precedence with hlt | heq2 | hgt
        · rw [if_pos hlt] at hAB
          rw [if_neg (by omega)] at hBA
          simp only [Except.ok.injEq] at hAB hBA
          omega
        · exact absurd heq2 heq
        · rw [if_neg (by omega)] at hAB
          rw [if_pos hgt] at hBA
          simp only [Except.ok.injEq] at hAB hBA
          omega
    · have hA' : A.sentinel = false := by simpa using hA
      have hB' : B.sentinel = false := hs ▸ hA'
      by_cases hn : strCmpOptionName A.name B.name = 0
      · have hn' : strCmpOptionName B.name A.name = 0 := by
          rw [strCmpOptionName_antisym A.name B.name, hn, neg_zero]
        rw [if_neg (by simp [hn])] at hAB
        rw [if_neg (by simp [hn'])] at hBA
        by_cases hp : comparePrefixLists A.prefixes B.prefixes = 0
        · have hp' : comparePrefixLists B.prefixes A.prefixes = 0 := by
            rw [comparePrefixLists_antisym A.prefixes B.prefixes, hp, neg_zero]
          rw [if_neg (by simp [hp])] at hAB
          rw [if_neg (by simp [hp'])] at hBA
          by_cases heq : A.precedence = B.precedence
          · by_cases hpre : A.prefixes = B.prefixes
            · rw [if_pos ⟨heq, hpre⟩] at hAB
              exact absurd hAB (by simp)
            · rw [if_neg (by simp [hpre])] at hAB
              rw [if_neg (fun hc => hpre hc.2.symm)] at hBA
              have hr : r = 1 := by
                have := hAB
                rw [if_neg (by simp [heq])] at this
                simpa using this.symm
              have hsv : s = 1 := by
                have := hBA
                rw [if_neg (by simp [heq.symm])] at this
                simpa using this.symm
              exact Or.inr ⟨hr, hsv, heq, hpre⟩
          · left
            rw [if_neg (by simp [heq])] at hAB
            rw [if_neg (fun hc => heq hc.1.symm)] at hBA
            rcases lt_trichotomy A.precedence B.precedence with hlt | heq2 | hgt
            · rw [if_pos hlt] at hAB
              rw [if_neg (by omega)] at hBA
              simp only [Except.ok.injEq] at hAB hBA
              omega
            · exact absurd heq2 heq
            · rw [if_neg (by omega)] at hAB
              rw [if_pos hgt] at hBA
              simp only [Except.ok.injEq] at hAB hBA
              omega
        · left
          have hp' : comparePrefixLists B.prefixes A.prefixes ≠ 0 := by
            rw [comparePrefixLists_antisym A.prefixes B.prefixes]
            simpa using hp
          rw [if_pos ⟨by simp [hA'], hp⟩] at hAB
          rw [if_pos ⟨by simp [hB'], hp'⟩] at hBA
          simp only [Except.ok.injEq] at hAB hBA
          rw [← hAB, ← hBA, comparePrefixLists_antisym A.prefixes B.prefixes]
      · left
        have hn' : strCmpOptionName B.name A.name ≠ 0 := by
          rw [strCmpOptionName_antisym A.name B.name]
          simpa using hn
        rw [if_pos ⟨by simp [hA'], hn⟩] at hAB
        rw [if_pos ⟨by simp [hB'], hn'⟩] at hBA
        simp only [Except.ok.injEq] at hAB hBA
        rw [← hAB, ← hBA, strCmpOptionName_antisym A.name B.name]
  · left
    have hs2 : B.sentinel ≠ A.sentinel := fun h => hs h.symm
    rw [compareOptionRecords, if_pos hs] at hAB
    rw [compareOptionRecords, if_pos hs2] at hBA
    simp only [Except.ok.injEq] at hAB hBA
    cases hA : A.sentinel
    · have hB : B.sentinel = true := by
        cases hB2 : B.sentinel
        · exact absurd (hA ▸ hB2 ▸ rfl) hs
        · rfl
      rw [hA] at hAB
      rw [hB] at hBA
      simp at hAB hBA
      omega
    · have hB : B.sentinel = false := by
        cases hB2 : B.sentinel
        · rfl
        · exact absurd (hA ▸ hB2 ▸ rfl) hs
      rw [hA] at hAB
      rw [hB] at hBA
      simp at hAB hBA
      omega

/-- Witness for C8's amended antisymmetry on the records named `a` and
`b`, where the comparator is decided by the name and the signs negate. -/
theorem compareOptionRecords_antisym_witness :
    (1 : Int) = -(-1 : Int) ∨
      ((-1 : Int) = 1 ∧ (1 : Int) = 1 ∧ recP.precedence = recQ.precedence ∧
        recP.prefixes ≠ recQ.prefixes) :=
  compareOptionRecords_antisym recP recQ (-1) 1 rfl rfl

/-- C2 counterexample: the configuration `[dupW, dupA, dupY, dupA]`
contains two entries (`dupA` twice) equal in every discriminating field,
and the comparator raises the fatal error whenever it compares them; yet
sorting this configuration with the comparator completes without any
error, because the sort never compares the two duplicates against each
other (`dupA` and `dupW` compare as 1 in both directions, and the second
`dupA` is inserted before `dupY` without ever reaching the first). -/
theorem arrayPodSort_misses_duplicate :
    arrayPodSort compareOptionRecords [dupW, dupA, dupY, dupA] =
      Except.ok [dupA, dupY, dupW, dupA] ∧
    compareOptionRecords dupA dupA = Except.error () :=
  ⟨rfl, rfl⟩

/-- C2 amended: whenever the comparator is applied to two records equal
in all discriminating fields (sentinel flag, name, prefix list, kind
precedence), it raises the single fatal configuration error — so a
duplicate is detected at configuration time whenever the sort compares
the pair, though the sort is not guaranteed to compare every pair. -/
theorem compareOptionRecords_duplicate_fatal (A B : OptRecord)
    (hs : A.sentinel = B.sentinel) (hn : A.name = B.name)
    (hp : A.prefixes = B.prefixes) (hq : A.precedence = B.precedence) :
    compareOptionRecords A B = Except.error () := by
  rw [compareOptionRecords]
  rw [if_neg (by simp [hs])]
  rw [if_neg (by simp [hn, strCmpOptionName_refl])]
  rw [if_neg (by simp [hp, comparePrefixLists_refl])]
  rw [if_pos ⟨hq, hp⟩]

/-- Witness for the amended C2 at the concrete duplicate pair. -/
theorem compareOptionRecords_duplicate_fatal_witness :
    compareOptionRecords dupA dupA = Except.error () :=
  compareOptionRecords_duplicate_fatal dupA dupA rfl rfl rfl rfl

/-! ## Theorems for the spec-modelled resolution engine -/

/-- C3: whenever `lookupFile` finds a file, its `isSystemFramework`
output is set exactly when the hit lies in a framework explicitly
declared "system" by configuration, and the whole lookup result is
independent of the entry's characteristic. -/
theorem lookupFile_isSystemFramework (e : SearchPathEntry) (filename : Path)
    (fc : FileCache) (hit : LookupHit)
    (h : lookupFile e filename fc = some hit) :
    hit.isSystemFramework = e.inDeclaredSystemFramework ∧
    ∀ c, lookupFile (e.withCharacteristic c) filename fc =
      lookupFile e filename fc := by
  constructor
  · cases e with
    | NormalDirectory d ch =>
      simp only [lookupFile] at h
      cases hst : fc.statFile (d ++ filename) with
      | none => rw [hst] at h; exact absurd h (by simp)
      | some f =>
        rw [hst] at h
        simp only [Option.some.injEq] at h
        rw [← h]
        rfl
    | HeaderMapEntry m ch ix =>
      simp only [lookupFile] at h
      cases hv : m.lookup filename with
      | some p =>
        rw [hv] at h
        simp only [Option.some.injEq] at h
        rw [← h]
        rfl
      | none =>
        rw [hv] at h
        cases ix with
        | false => exact absurd h (by simp)
        | true =>
          cases filename with
          | nil => exact absurd h (by simp)
          | cons f1 rest1 =>
            cases rest1 with
            | nil => exact absurd h (by simp)
            | cons r2 rest =>
              simp only [if_true] at h
              cases hv2 : m.lookup (r2 :: rest) with
              | none => rw [hv2] at h; exact absurd h (by simp)
              | some p =>
                rw [hv2] at h
                simp only [Option.some.injEq] at h
                rw [← h]
                rfl
  · intro c
    cases e <;> rfl

/-- Witness for C3: an index header map of a declared system framework,
hit through the stripped `<FrameworkName>/<Rest>` probe. -/
theorem lookupFile_isSystemFramework_witness :
    (({ file := ["SDK", "h.h"], isSystemFramework := true } : LookupHit).isSystemFramework
      = (SearchPathEntry.HeaderMapEntry sysMapTable 0 true).inDeclaredSystemFramework) ∧
    ∀ c, lookupFile
        ((SearchPathEntry.HeaderMapEntry sysMapTable 0 true).withCharacteristic c)
        ["W", "h.h"] emptyCache =
      lookupFile (SearchPathEntry.HeaderMapEntry sysMapTable 0 true)
        ["W", "h.h"] emptyCache :=
  lookupFile_isSystemFramework (SearchPathEntry.HeaderMapEntry sysMapTable 0 true)
    ["W", "h.h"] emptyCache { file := ["SDK", "h.h"], isSystemFramework := true } rfl

/-- The scan returns the first hit: if the entry at relative position `m`
is scanned (not skipped) and hits, while every earlier position is
skipped or misses, the scan returns exactly that entry's result. -/
theorem scanEntries_first_hit (fc : FileCache) (filename : Path) (angled : Bool) :
    ∀ (l : List ConfiguredEntry) (base m : Nat) (cei : ConfiguredEntry) (h : LookupHit),
      l[m]? = some cei →
      ¬(cei.quoteOnly = true ∧ angled = true) →
      lookupFile cei.entry filename fc = some h →
      (∀ k cek, k < m → l[k]? = some cek →
        (cek.quoteOnly = true ∧ angled = true) ∨
          lookupFile cek.entry filename fc = none) →
      scanEntries fc filename angled base l =
        some { source := ResultSource.fromEntry (base + m), file := h.file,
               isSystemFramework := h.isSystemFramework,
               characteristic := cei.entry.characteristic } := by
  intro l
  induction l with
  | nil =>
    intro base m cei h hget
    exact absurd hget (by simp)
  | cons ce rest ih =>
    intro base m cei h hget hskip hhit hfirst
    cases m with
    | zero =>
      simp only [List.getElem?_cons_zero, Option.some.injEq] at hget
      subst hget
      have hq : (ce.quoteOnly && angled) = false := by
        cases h1 : ce.quoteOnly
        · rfl
        · cases h2 : angled
          · rfl
          · exact absurd ⟨h1, h2⟩ hskip
      rw [scanEntries, hq]
      simp only [Bool.false_eq_true, if_false]
      rw [hhit]
      simp
    | succ m2 =>
      simp only [List.getElem?_cons_succ] at hget
      have hrec :
          scanEntries fc filename angled base (ce :: rest) =
            scanEntries fc filename angled (base + 1) rest := by
        rcases hfirst 0 ce (Nat.succ_pos m2) (by simp) with hsk | hmiss
        · have hq : (ce.quoteOnly && angled) = true := by
            rw [hsk.1, hsk.2]
            rfl
          rw [scanEntries, hq]
          simp only [if_true]
        · rw [scanEntries]
          cases hq : (ce.quoteOnly && angled)
          · simp only [Bool.false_eq_true, if_false]
            rw [hmiss]
          · simp only [if_true]
      rw [hrec]
      have harith : base + 1 + m2 = base + (m2 + 1) := by omega
      rw [← harith]
      exact ih (base + 1) m2 cei h hget hskip hhit
        (fun k cek hk hgk => hfirst (k + 1) cek (by omega) (by simpa using hgk))

/-- C1: `resolve` scans the entries in configured order from the scan
start index and the first `lookupFile` hit terminates the scan: if the
entry at index `i` is in scan range, not skipped, and hits, while every
earlier in-range entry is skipped or misses, then entry `i` supplies the
result — with its own characteristic, whatever the characteristics of any
entries are — and no later entry `j` does. -/
theorem resolve_order_precedence (sl : SearchList) (filename : Path)
    (kind : IncludeKind) (fc : FileCache)
    (i : Nat) (cei : ConfiguredEntry) (h : LookupHit)
    (hgi : sl.entries[i]? = some cei)
    (hstart : sl.startIndex kind ≤ i)
    (hskip : ¬(cei.quoteOnly = true ∧ kind = IncludeKind.Angled))
    (hhit : lookupFile cei.entry filename fc = some h)
    (hfirst : ∀ k cek, sl.startIndex kind ≤ k → k < i → sl.entries[k]? = some cek →
      (cek.quoteOnly = true ∧ kind = IncludeKind.Angled) ∨
        lookupFile cek.entry filename fc = none) :
    resolve sl filename kind none fc =
      some { source := ResultSource.fromEntry i, file := h.file,
             isSystemFramework := h.isSystemFramework,
             characteristic := cei.entry.characteristic } ∧
    ∀ j, i < j → ResultSource.fromEntry i ≠ ResultSource.fromEntry j := by
  constructor
  · have hscan :
        scanEntries fc filename (kind == IncludeKind.Angled) (sl.startIndex kind)
            (sl.entries.drop (sl.startIndex kind)) =
          some { source := ResultSource.fromEntry i, file := h.file,
                 isSystemFramework := h.isSystemFramework,
                 characteristic := cei.entry.characteristic } := by
      have hgi2 : (sl.entries.drop (sl.startIndex kind))[i - sl.startIndex kind]?
          = some cei := by
        rw [List.getElem?_drop]
        have : sl.startIndex kind + (i - sl.startIndex kind) = i := by omega
        rw [this]
        exact hgi
      have hskip2 : ¬(cei.quoteOnly = true ∧ (kind == IncludeKind.Angled) = true) := by
        intro hc
        exact hskip ⟨hc.1, by simpa using hc.2⟩
      have hfirst2 : ∀ k cek, k < i - sl.startIndex kind →
          (sl.entries.drop (sl.startIndex kind))[k]? = some cek →
          (cek.quoteOnly = true ∧ (kind == IncludeKind.Angled) = true) ∨
            lookupFile cek.entry filename fc = none := by
        intro k cek hk hgk
        rw [List.getElem?_drop] at hgk
        rcases hfirst (sl.startIndex kind + k) cek (by omega) (by omega) hgk with hc | hc
        · exact Or.inl ⟨hc.1, by simp [hc.2]⟩
        · exact Or.inr hc
      have := scanEntries_first_hit fc filename (kind == IncludeKind.Angled)
        (sl.entries.drop (sl.startIndex kind)) (sl.startIndex kind)
        (i - sl.startIndex kind) cei h hgi2 hskip2 hhit hfirst2
      rw [this]
      have harith : sl.startIndex kind + (i - sl.startIndex kind) = i := by omega
      rw [harith]
    cases kind with
    | Angled => simpa [resolve] using hscan
    | Quoted => simpa [resolve] using hscan
  · intro j hij hcon
    injection hcon with hidx
    omega

/-- Witness for C1: two normal directories, both containing `x.h`, with
different characteristics (User then System); the angled resolve returns
the copy from the earlier entry `/a` with characteristic User. -/
theorem resolve_order_precedence_witness :
    (resolve twoDirList ["x.h"] IncludeKind.Angled none twoDirCache =
      some { source := ResultSource.fromEntry 0, file := ["a", "x.h"],
             isSystemFramework := false, characteristic := 0 }) ∧
    ∀ j, 0 < j → ResultSource.fromEntry 0 ≠ ResultSource.fromEntry j :=
  resolve_order_precedence twoDirList ["x.h"] IncludeKind.Angled twoDirCache 0
    { entry := SearchPathEntry.NormalDirectory ["a"] 0, quoteOnly := false }
    { file := ["a", "x.h"], isSystemFramework := false }
    rfl (Nat.le_refl 0) (by simp) rfl
    (fun k cek hks hklt hget => absurd hklt (Nat.not_lt_zero k))

end Vlang
